import Mathlib

/-!
Shallow embedding of the authentication core of `src/app.js`
(Express handlers `POST /signup`, lines 137-160, and `POST /signin`,
lines 163-182, together with the `userSchema` declaration, lines 52-56).

The handlers are translated control-flow-faithfully:
* the Mongo/mongoose user collection becomes an explicit `DbState`
  (a list of records; the `unique: true` index on `username` is modelled
  inside `insertUnique`, required-field validation in the `email` match);
* `await`-ed collaborator calls that can reject (the mail transport, a
  duplicate-key violation from a concurrent insert) are driven by an
  explicit `Env`; a rejection transfers control to the handler's single
  `catch (error)` block, which the embedding renders by returning
  `errResp error.message` (the JS `res.status(500).json(\x7bmsg: error.message\x7d)`);
* observable side effects (calls to `bcrypt.hash`, `bcrypt.compare`,
  successful `sendMail`) are collected in an `Effects` record.
-/

/-- One document of the `users` collection (`userSchema`, src/app.js:52-56).
The `password` field stores whatever string the handler passed to
`User.create` (the handler stores the bcrypt hash there). -/
structure UserRec where
  username : String
  email    : String
  password : String
deriving DecidableEq

/-- The persistent store state: the `users` collection in insertion order. -/
structure DbState where
  users : List UserRec
deriving DecidableEq

/-- Model of the external `bcrypt` collaborator's `hash(plaintext, 10)`:
an opaque, injective, prefix-tagged transform.  The exact digest is
irrelevant to the claims; what matters is that the stored value is a
function of the plaintext and is never the plaintext itself. -/
def bcryptHash (p : String) : String := "$2b$10$" ++ p

/-- Model of `bcrypt.compare(plaintext, storedHash)`: true iff the
plaintext hashes to the stored value under the same scheme. -/
def bcryptCompare (p h : String) : Bool := h == bcryptHash p

/-- A decoded JWT as produced by `jsonwebtoken`: payload claims
(`username`, `iat`), the registered `exp` claim, and the HS256 signature
over payload and secret. -/
structure Token where
  username : String
  iat : Nat
  exp : Nat
  sig : String
deriving DecidableEq

/-- Model of the HS256 signature: an opaque value determined by the secret
and the signed content. -/
def jwtSignature (secret username : String) (iat e : Nat) : String :=
  "HS256(" ++ secret ++ "," ++ username ++ "," ++ toString iat ++ "," ++ toString e ++ ")"

/-- Model of `jwt.sign(\x7b username \x7d, secretkey, \x7b expiresIn: "1h" \x7d)`
(src/app.js:174-176): the `exp` claim is issuance time plus 3600 seconds. -/
def jwtSign (username secret : String) (now : Nat) : Token :=
  { username := username, iat := now, exp := now + 3600,
    sig := jwtSignature secret username now (now + 3600) }

/-- Model of `jsonwebtoken` verification at clock time `now`: signature
must match and the token is rejected from its `exp` instant onwards
(valid iff `now < exp`). -/
def jwtVerify (t : Token) (secret : String) (now : Nat) : Bool :=
  (t.sig == jwtSignature secret t.username t.iat t.exp) && decide (now < t.exp)

/-- Per-request environment: the behaviour of the external collaborators
during this request.
* `emailOk` — whether `transporter.sendMail` fulfils; when `false` it
  rejects with message `emailErrMsg`.
* `race` — an insert committed by a concurrent request between this
  handler's `findOne` existence check and its `User.create` (none in the
  sequential case).
* `secret` — the process-wide `SECRETKEY`.
* `now` — the clock time at which `jwt.sign` runs. -/
structure Env where
  emailOk : Bool
  emailErrMsg : String
  race : Option UserRec
  secret : String
  now : Nat
deriving DecidableEq

/-- An HTTP response as the handlers build it: `res.json(...)` is status
200; the catch block is `res.status(500).json(...)`. -/
structure Resp where
  status : Nat
  msg : String
  tokenKey : Option Token
deriving DecidableEq

/-- `res.json(\x7b msg \x7d)` — a 200 response carrying only a message. -/
def okMsg (m : String) : Resp := ⟨200, m, none⟩

/-- The catch block `res.status(500).json(\x7b msg: error.message \x7d)`:
the raw error message is passed through to the client. -/
def errResp (m : String) : Resp := ⟨500, m, none⟩

/-- Observable collaborator calls made while handling one request. -/
structure Effects where
  hashed : List String
  compared : List (String × String)
  emailsSent : List String
deriving DecidableEq

/-- No collaborator calls. -/
def noEffects : Effects := ⟨[], [], []⟩

/-- `User.findOne(\x7b username \x7d)` (src/app.js:141, 167): first record
whose username matches, or absent. -/
def findOne (st : DbState) (username : String) : Option UserRec :=
  st.users.find? (fun r => r.username == username)

/-- The raw mongoose duplicate-key rejection message (E11000) produced by
the unique index on `username` (`userSchema`, src/app.js:53). -/
def dupKeyMsg (u : String) : String :=
  "E11000 duplicate key error collection: test.users index: username_1 dup key: " ++ u

/-- The insert step of `User.create`: rejects with the raw E11000 message
when the unique index on `username` is violated, otherwise appends the
record durably. -/
def insertUnique (st : DbState) (r : UserRec) : Except String DbState :=
  if st.users.any (fun u => u.username == r.username) then
    .error (dupKeyMsg r.username)
  else
    .ok ⟨st.users ++ [r]⟩

/-- The state actually visible at `User.create` time: a concurrent
request's insert may have landed after this handler's existence check
(it commits only if it itself respects the unique index). -/
def applyRace (env : Env) (st : DbState) : DbState :=
  match env.race with
  | none => st
  | some r =>
    if st.users.any (fun u => u.username == r.username) then st
    else ⟨st.users ++ [r]⟩

/-- The body of `POST /signup` as destructured on src/app.js:139; a field
missing from the JSON body destructures to `undefined` (`none`). -/
structure SignupReq where
  username : String
  email : Option String
  password : Option String
deriving DecidableEq

/-- `POST /signup` (src/app.js:137-160), translated branch by branch:
1. `User.findOne(\x7b username \x7d)`; if a record exists, respond 200
   "Username already exists" (line 143) — nothing else runs.
2. `bcrypt.hash(password, 10)` (line 145); an absent password makes
   bcrypt reject ("data and salt arguments required"), landing in the
   catch block.
3. `User.create(...)` (line 146) against the state a concurrent insert
   may have modified; mongoose required-field validation rejects on a
   missing `email`, the unique index rejects with E11000 on a duplicate
   username; either rejection lands in the catch block.
4. `transporter.sendMail(...)` (lines 149-154); a transport rejection
   lands in the catch block — after the record was already persisted.
5. Respond 200 "Signup successful & email sent" (line 156).
The catch block (lines 157-159) responds 500 with the raw error message. -/
def signup (env : Env) (st : DbState) (req : SignupReq) : Resp × DbState × Effects :=
  match findOne st req.username with
  | some _ => (okMsg "Username already exists", st, noEffects)
  | none =>
    match req.password with
    | none => (errResp "data and salt arguments required", st, noEffects)
    | some p =>
      let hashedPassword := bcryptHash p
      let eff : Effects := ⟨[p], [], []⟩
      let st1 := applyRace env st
      match req.email with
      | none =>
        (errResp "users validation failed: email: Path email is required.", st1, eff)
      | some e =>
        match insertUnique st1 ⟨req.username, e, hashedPassword⟩ with
        | .error m => (errResp m, st1, eff)
        | .ok st2 =>
          if env.emailOk then
            (okMsg "Signup successful & email sent", st2, ⟨[p], [], [e]⟩)
          else
            (errResp env.emailErrMsg, st2, eff)

/-- The body of `POST /signin` as destructured on src/app.js:165. -/
structure SigninReq where
  username : String
  password : String
deriving DecidableEq

/-- `POST /signin` (src/app.js:163-182), translated branch by branch:
1. `User.findOne(\x7b username \x7d)`; absent → 200 "User not found"
   (line 168), without calling `bcrypt.compare`.
2. `bcrypt.compare(password, user.password)` (line 170); mismatch →
   200 "Invalid username or password" (line 172), no token.
3. `jwt.sign(\x7b username \x7d, secretkey, \x7b expiresIn: "1h" \x7d)` and a
   200 "Login successful" response carrying the token (lines 174-178).
The store is never written. -/
def signin (env : Env) (st : DbState) (req : SigninReq) : Resp × DbState × Effects :=
  match findOne st req.username with
  | none => (okMsg "User not found", st, noEffects)
  | some user =>
    let eff : Effects := ⟨[], [(req.password, user.password)], []⟩
    if bcryptCompare req.password user.password then
      let token := jwtSign req.username env.secret env.now
      (⟨200, "Login successful", some token⟩, st, eff)
    else
      (okMsg "Invalid username or password", st, eff)

/-- The User Directory invariant: usernames are pairwise distinct. -/
def usernamesUnique (st : DbState) : Prop :=
  (st.users.map (fun r => r.username)).Nodup

instance (st : DbState) : Decidable (usernamesUnique st) := by
  unfold usernamesUnique; infer_instance

/-! ### Helper lemmas -/

/-- The bcrypt model never returns its input: the hash is strictly longer. -/
theorem bcryptHash_ne (p : String) : bcryptHash p ≠ p := by
  intro h
  have h2 := congrArg (fun s : String => s.data.length) h
  simp only [bcryptHash, String.data_append, List.length_append] at h2
  have h7 : ("$2b$10$" : String).data.length = 7 := by decide
  rw [h7] at h2
  omega

/-- Signin never writes the store. -/
theorem signin_state_eq (env : Env) (st : DbState) (req : SigninReq) :
    (signin env st req).2.1 = st := by
  unfold signin
  cases findOne st req.username with
  | none => rfl
  | some u => by_cases h : bcryptCompare req.password u.password <;> simp [h]

/-- The race step only appends records. -/
theorem applyRace_prefix (env : Env) (st : DbState) :
    st.users <+: (applyRace env st).users := by
  unfold applyRace
  cases env.race with
  | none => exact List.prefix_refl _
  | some r =>
    by_cases h : st.users.any (fun u => u.username == r.username) <;>
      simp [h, List.prefix_refl, List.prefix_append]

/-- A successful insert only appends a record. -/
theorem insertUnique_ok_prefix (st st' : DbState) (r : UserRec)
    (h : insertUnique st r = .ok st') : st.users <+: st'.users := by
  unfold insertUnique at h
  by_cases hd : st.users.any (fun u => u.username == r.username) <;> simp [hd] at h
  subst h; exact List.prefix_append _ _

/-- Signup never removes or rewrites an existing record: the prior store
contents are a prefix of the resulting store contents. -/
theorem signup_users_prefix (env : Env) (st : DbState) (req : SignupReq) :
    st.users <+: (signup env st req).2.1.users := by
  unfold signup
  cases findOne st req.username with
  | some u => exact List.prefix_refl _
  | none =>
    cases req.password with
    | none => exact List.prefix_refl _
    | some p =>
      cases req.email with
      | none => exact applyRace_prefix env st
      | some e =>
        cases hi : insertUnique (applyRace env st) ⟨req.username, e, bcryptHash p⟩ with
        | error m => simpa [hi] using applyRace_prefix env st
        | ok st2 =>
          have h2 := insertUnique_ok_prefix _ _ _ hi
          have h1 := applyRace_prefix env st
          by_cases hm : env.emailOk <;> simp [hi, hm] <;> exact h1.trans h2

/-! ### Claim theorems -/

/-- C9: when signup terminates with the "Username already exists" outcome
from the pre-insert existence check, nothing else has happened: no hash
was computed, no record inserted, no email sent, and the store state is
unchanged. -/
theorem signup_taken_is_pure (env : Env) (st : DbState) (req : SignupReq)
    (u : UserRec) (h : findOne st req.username = some u) :
    signup env st req = (okMsg "Username already exists", st, noEffects) := by
  unfold signup
  rw [h]

theorem signup_taken_is_pure_witness :
    findOne ⟨[⟨"alice", "a@x.com", "h"⟩]⟩ "alice" = some ⟨"alice", "a@x.com", "h"⟩ ∧
    signup ⟨true, "", none, "s", 0⟩ ⟨[⟨"alice", "a@x.com", "h"⟩]⟩ ⟨"alice", some "b@x.com", some "pw"⟩ =
      (okMsg "Username already exists", ⟨[⟨"alice", "a@x.com", "h"⟩]⟩, noEffects) :=
  ⟨by decide,
   signup_taken_is_pure ⟨true, "", none, "s", 0⟩ ⟨[⟨"alice", "a@x.com", "h"⟩]⟩
     ⟨"alice", some "b@x.com", some "pw"⟩ ⟨"alice", "a@x.com", "h"⟩ (by decide)⟩

/-- `findOne` misses exactly when no stored record carries the username. -/
theorem findOne_none_iff (st : DbState) (u : String) :
    findOne st u = none ↔ ∀ r ∈ st.users, ¬ (r.username = u) := by
  unfold findOne
  rw [List.find?_eq_none]
  simp

/-- A missed lookup makes the membership scan used by the unique index
come out false. -/
theorem any_username_eq_false (st : DbState) (u : String)
    (h : findOne st u = none) :
    st.users.any (fun r => r.username == u) = false := by
  rw [List.any_eq_false]
  intro x hx
  simpa using (findOne_none_iff st u).mp h x hx

/-- Inserting a fresh username succeeds and appends the record. -/
theorem insertUnique_ok_of_fresh (st : DbState) (r : UserRec)
    (h : findOne st r.username = none) :
    insertUnique st r = .ok ⟨st.users ++ [r]⟩ := by
  unfold insertUnique
  rw [any_username_eq_false st r.username h]
  simp

/-- Without a concurrent insert the visible state is unchanged. -/
theorem applyRace_none (env : Env) (st : DbState) (h : env.race = none) :
    applyRace env st = st := by
  unfold applyRace
  rw [h]

/-- Appending a record whose username is not present preserves the
uniqueness invariant. -/
theorem usernamesUnique_append (st : DbState) (r : UserRec)
    (hu : usernamesUnique st)
    (hf : st.users.any (fun u => u.username == r.username) = false) :
    usernamesUnique ⟨st.users ++ [r]⟩ := by
  unfold usernamesUnique at hu ⊢
  rw [List.map_append, List.nodup_append]
  refine ⟨hu, List.nodup_singleton _, ?_⟩
  intro a ha hb
  simp only [List.map_cons, List.map_nil, List.mem_singleton] at hb
  subst hb
  rw [List.any_eq_false] at hf
  simp only [List.mem_map] at ha
  obtain ⟨x, hx, hxe⟩ := ha
  exact absurd (by simpa using hxe) (by simpa using hf x hx)

/-- The concurrent insert respects the uniqueness invariant. -/
theorem applyRace_unique (env : Env) (st : DbState) (hu : usernamesUnique st) :
    usernamesUnique (applyRace env st) := by
  unfold applyRace
  cases env.race with
  | none => exact hu
  | some r =>
    cases hany : st.users.any (fun u => u.username == r.username) with
    | true => simpa [hany] using hu
    | false => simpa [hany] using usernamesUnique_append st r hu hany

/-- A successful unique-index insert preserves the uniqueness invariant. -/
theorem insertUnique_unique (st st' : DbState) (r : UserRec)
    (hu : usernamesUnique st) (h : insertUnique st r = .ok st') :
    usernamesUnique st' := by
  unfold insertUnique at h
  cases hany : st.users.any (fun u => u.username == r.username) <;> rw [hany] at h <;>
    simp at h
  rw [← h]
  exact usernamesUnique_append st r hu hany

/-- Every signup, whatever the environment does, preserves the
uniqueness invariant. -/
theorem signup_preserves_unique (env : Env) (st : DbState) (req : SignupReq)
    (hu : usernamesUnique st) : usernamesUnique (signup env st req).2.1 := by
  unfold signup
  cases findOne st req.username with
  | some u => exact hu
  | none =>
    cases req.password with
    | none => exact hu
    | some p =>
      cases req.email with
      | none => exact applyRace_unique env st hu
      | some e =>
        cases hi : insertUnique (applyRace env st) ⟨req.username, e, bcryptHash p⟩ with
        | error m => simpa [hi] using applyRace_unique env st hu
        | ok st2 =>
          have h2 := insertUnique_unique _ _ _ (applyRace_unique env st hu) hi
          by_cases hm : env.emailOk <;> simp [hi, hm] <;> exact h2

/-- A signup hitting an existing username answers "Username already
exists" and does nothing (shared helper). -/
theorem signup_taken_eq (env : Env) (st : DbState) (req : SignupReq)
    (u : UserRec) (h : findOne st req.username = some u) :
    signup env st req = (okMsg "Username already exists", st, noEffects) := by
  unfold signup
  rw [h]

/-- C3: signin for an unknown username answers "User not found" without
calling `bcrypt.compare`; a known username with a non-matching password
answers "Invalid username or password" with no token; and a token is
handed out only on the branch where the stored hash verified. -/
theorem signin_gating (env : Env) (st : DbState) (req : SigninReq) :
    (findOne st req.username = none →
      signin env st req = (okMsg "User not found", st, noEffects)) ∧
    (∀ u, findOne st req.username = some u →
      bcryptCompare req.password u.password = false →
      signin env st req =
        (okMsg "Invalid username or password", st,
         ⟨[], [(req.password, u.password)], []⟩)) ∧
    (∀ t, (signin env st req).1.tokenKey = some t →
      ∃ u, findOne st req.username = some u ∧
        bcryptCompare req.password u.password = true) := by
  refine ⟨?_, ?_, ?_⟩
  · intro h
    unfold signin
    rw [h]
  · intro u h hm
    unfold signin
    rw [h]
    simp [hm]
  · intro t ht
    unfold signin at ht
    cases hf : findOne st req.username with
    | none => rw [hf] at ht; simp [okMsg, noEffects] at ht
    | some u =>
      rw [hf] at ht
      cases hm : bcryptCompare req.password u.password with
      | false => simp [hm, okMsg] at ht
      | true => exact ⟨u, rfl, hm⟩

theorem signin_gating_witness :
    findOne ⟨[⟨"alice", "a@x.com", bcryptHash "secret1"⟩]⟩ "bob" = none ∧
    signin ⟨true, "", none, "k", 0⟩ ⟨[⟨"alice", "a@x.com", bcryptHash "secret1"⟩]⟩ ⟨"bob", "pw"⟩ =
      (okMsg "User not found", ⟨[⟨"alice", "a@x.com", bcryptHash "secret1"⟩]⟩, noEffects) :=
  ⟨by decide,
   (signin_gating ⟨true, "", none, "k", 0⟩ ⟨[⟨"alice", "a@x.com", bcryptHash "secret1"⟩]⟩
     ⟨"bob", "pw"⟩).1 (by decide)⟩

/-- C8: no core operation updates or deletes a User record: signin
returns the store unchanged, and signup only ever appends — the prior
store contents remain a prefix of the result, untouched. -/
theorem core_ops_frame (env env' : Env) (st st' : DbState)
    (sreq : SigninReq) (ureq : SignupReq) :
    (signin env st sreq).2.1 = st ∧
    st'.users <+: (signup env' st' ureq).2.1.users :=
  ⟨signin_state_eq env st sreq, signup_users_prefix env' st' ureq⟩

/-- C1: the code contradicts the claim at this input.  On a fresh
username with a failing mail transport, the handler persists the User
record and then the awaited `sendMail` rejection falls into the catch
block: the response is a 500 carrying the transport error, not the
success outcome.  (The record is indeed not rolled back.) -/
theorem signup_email_failure_reports_failure :
    signup ⟨false, "connect ETIMEDOUT smtp.gmail.com:465", none, "k", 0⟩ ⟨[]⟩
        ⟨"alice", some "a@x.com", some "secret1"⟩ =
      (errResp "connect ETIMEDOUT smtp.gmail.com:465",
       ⟨[⟨"alice", "a@x.com", bcryptHash "secret1"⟩]⟩,
       ⟨["secret1"], [], []⟩) := by
  rfl

/-- C4 counterexample: a duplicate-key rejection at `User.create` time
(concurrent insert of "bob" after the existence check passed) is not
translated into the "Username already exists" domain outcome: the
response is the raw E11000 message with status 500. -/
theorem signup_race_not_translated :
    (signup ⟨true, "", some ⟨"bob", "b@x.com", "h2"⟩, "k", 0⟩ ⟨[]⟩
        ⟨"bob", some "b2@x.com", some "pw2"⟩).1 =
      errResp (dupKeyMsg "bob") ∧
    (signup ⟨true, "", some ⟨"bob", "b@x.com", "h2"⟩, "k", 0⟩ ⟨[]⟩
        ⟨"bob", some "b2@x.com", some "pw2"⟩).1 ≠
      okMsg "Username already exists" := by
  constructor
  · rfl
  · decide

/-- C4 amended: when a concurrent insert wins the race after a passed
existence check, the duplicate-key rejection lands in the generic catch
block and is surfaced as a 500 response whose message is the raw E11000
error string — not as the UsernameTaken domain outcome. -/
theorem signup_race_raw_fault (env : Env) (st : DbState) (req : SignupReq)
    (r : UserRec) (p e : String)
    (hf : findOne st req.username = none)
    (hp : req.password = some p) (he : req.email = some e)
    (hr : env.race = some r) (hru : r.username = req.username) :
    signup env st req =
      (errResp (dupKeyMsg req.username), ⟨st.users ++ [r]⟩, ⟨[p], [], []⟩) := by
  have hany := any_username_eq_false st req.username hf
  have hanyr : st.users.any (fun u => u.username == r.username) = false := by
    rw [hru]; exact hany
  have hrace : applyRace env st = ⟨st.users ++ [r]⟩ := by
    simp [applyRace, hr, hanyr]
  have hins : insertUnique ⟨st.users ++ [r]⟩ ⟨req.username, e, bcryptHash p⟩ =
      .error (dupKeyMsg req.username) := by
    unfold insertUnique
    have : (st.users ++ [r]).any (fun u => u.username == req.username) = true := by
      rw [List.any_append]
      simp [hru]
    rw [this]
    simp
  simp [signup, hf, hp, he, hrace, hins]

theorem signup_race_raw_fault_witness :
    findOne ⟨[]⟩ "bob" = none ∧
    signup ⟨true, "", some ⟨"bob", "b@x.com", "h2"⟩, "k", 0⟩ ⟨[]⟩
        ⟨"bob", some "b2@x.com", some "pw2"⟩ =
      (errResp (dupKeyMsg "bob"), ⟨[⟨"bob", "b@x.com", "h2"⟩]⟩, ⟨["pw2"], [], []⟩) :=
  ⟨by decide,
   signup_race_raw_fault ⟨true, "", some ⟨"bob", "b@x.com", "h2"⟩, "k", 0⟩ ⟨[]⟩
     ⟨"bob", some "b2@x.com", some "pw2"⟩ ⟨"bob", "b@x.com", "h2"⟩ "pw2" "b2@x.com"
     (by decide) rfl rfl rfl rfl⟩

/-- In the absence of a concurrent insert, a signup either leaves the
store exactly as it was, or appends exactly one record carrying the
bcrypt hash of the submitted password. -/
theorem signup_state_cases (env : Env) (st : DbState) (req : SignupReq)
    (hr : env.race = none) :
    (signup env st req).2.1 = st ∨
    ∃ p e, req.password = some p ∧ req.email = some e ∧
      (signup env st req).2.1 = ⟨st.users ++ [⟨req.username, e, bcryptHash p⟩]⟩ := by
  have hrace := applyRace_none env st hr
  unfold signup
  cases hf : findOne st req.username with
  | some u => exact Or.inl rfl
  | none =>
    cases hp : req.password with
    | none => exact Or.inl rfl
    | some p =>
      cases he : req.email with
      | none => exact Or.inl (by simp [hrace])
      | some e =>
        cases hi : insertUnique st ⟨req.username, e, bcryptHash p⟩ with
        | error m => exact Or.inl (by simp [hrace, hi])
        | ok st2 =>
          right
          refine ⟨p, e, rfl, rfl, ?_⟩
          have hst2 : st2 = ⟨st.users ++ [⟨req.username, e, bcryptHash p⟩]⟩ := by
            rw [insertUnique_ok_of_fresh st _ hf] at hi
            exact (Except.ok.inj hi).symm
          by_cases hm : env.emailOk <;> simp [hrace, hi, hm, hst2]

/-- Every record a raceless signup leaves in the store either predates the
call or carries the bcrypt hash of the submitted password. -/
theorem signup_new_records_hashed (env : Env) (st : DbState) (req : SignupReq)
    (hr : env.race = none) :
    ∀ r ∈ (signup env st req).2.1.users,
      r ∈ st.users ∨ ∃ p, req.password = some p ∧ r.password = bcryptHash p := by
  intro r hmem
  rcases signup_state_cases env st req hr with h | ⟨p, e, hp, he, h⟩
  · rw [h] at hmem; exact Or.inl hmem
  · rw [h] at hmem
    simp only [List.mem_append, List.mem_singleton] at hmem
    rcases hmem with hmem | hmem
    · exact Or.inl hmem
    · subst hmem; exact Or.inr ⟨p, hp, rfl⟩

/-- Looking up a freshly appended record finds it. -/
theorem findOne_append_fresh (st : DbState) (r : UserRec) (u : String)
    (hf : findOne st u = none) (hr : r.username = u) :
    findOne ⟨st.users ++ [r]⟩ u = some r := by
  unfold findOne at hf ⊢
  rw [List.find?_append, hf]
  simp [List.find?, hr]

/-- C5 counterexample: an email-transport fault during signup puts the
raw internal error string verbatim into the response message. -/
theorem signup_fault_passthrough_cex :
    (signup ⟨false, "read ECONNRESET", none, "k", 0⟩ ⟨[]⟩
        ⟨"carol", some "c@x.com", some "pw3"⟩).1.msg = "read ECONNRESET" ∧
    (signup ⟨false, "read ECONNRESET", none, "k", 0⟩ ⟨[]⟩
        ⟨"carol", some "c@x.com", some "pw3"⟩).1.status = 500 := by
  constructor <;> rfl

/-- C5 amended: the catch block passes `error.message` straight through:
an email-transport fault on a fresh signup yields a 500 response whose
message is exactly the transport's internal error string. -/
theorem signup_fault_passthrough (env : Env) (st : DbState) (req : SignupReq)
    (p e : String)
    (hf : findOne st req.username = none)
    (hp : req.password = some p) (he : req.email = some e)
    (hr : env.race = none) (hm : env.emailOk = false) :
    (signup env st req).1 = errResp env.emailErrMsg := by
  have hrace := applyRace_none env st hr
  have hins := insertUnique_ok_of_fresh st ⟨req.username, e, bcryptHash p⟩ hf
  simp [signup, hf, hp, he, hrace, hins, hm]

theorem signup_fault_passthrough_witness :
    findOne ⟨[]⟩ "carol" = none ∧
    (signup ⟨false, "read ECONNRESET", none, "k", 0⟩ ⟨[]⟩
        ⟨"carol", some "c@x.com", some "pw3"⟩).1 = errResp "read ECONNRESET" :=
  ⟨by decide,
   signup_fault_passthrough ⟨false, "read ECONNRESET", none, "k", 0⟩ ⟨[]⟩
     ⟨"carol", some "c@x.com", some "pw3"⟩ "pw3" "c@x.com"
     (by decide) rfl rfl rfl rfl⟩

/-- C2: sequentially, the first signup of a fresh username (with healthy
collaborators) succeeds and appends exactly one record; on the resulting
store any later signup of the same username answers "Username already
exists" and changes nothing; and every signup, whatever the environment,
preserves the username-uniqueness invariant. -/
theorem signup_username_uniqueness (env1 : Env) (st : DbState) (r1 : SignupReq)
    (p e : String)
    (hu : usernamesUnique st)
    (hfresh : findOne st r1.username = none)
    (hrace : env1.race = none) (hemail : env1.emailOk = true)
    (hp : r1.password = some p) (he : r1.email = some e) :
    (signup env1 st r1).1 = okMsg "Signup successful & email sent" ∧
    (signup env1 st r1).2.1 = ⟨st.users ++ [⟨r1.username, e, bcryptHash p⟩]⟩ ∧
    usernamesUnique (signup env1 st r1).2.1 ∧
    (∀ env2 r2, r2.username = r1.username →
      signup env2 (signup env1 st r1).2.1 r2 =
        (okMsg "Username already exists", (signup env1 st r1).2.1, noEffects)) ∧
    (∀ env st' req, usernamesUnique st' →
      usernamesUnique (signup env st' req).2.1) := by
  have hrace' := applyRace_none env1 st hrace
  have hins := insertUnique_ok_of_fresh st ⟨r1.username, e, bcryptHash p⟩ hfresh
  have hstate : (signup env1 st r1).2.1 = ⟨st.users ++ [⟨r1.username, e, bcryptHash p⟩]⟩ := by
    simp [signup, hfresh, hp, he, hrace', hins, hemail]
  refine ⟨?_, hstate, signup_preserves_unique env1 st r1 hu, ?_,
    fun env st' req h => signup_preserves_unique env st' req h⟩
  · simp [signup, hfresh, hp, he, hrace', hins, hemail]
  · intro env2 r2 hr2
    have hfind : findOne (signup env1 st r1).2.1 r2.username =
        some ⟨r1.username, e, bcryptHash p⟩ := by
      rw [hstate, hr2]
      exact findOne_append_fresh st _ r1.username hfresh rfl
    exact signup_taken_eq env2 _ r2 _ hfind

theorem signup_username_uniqueness_witness :
    usernamesUnique (⟨[]⟩ : DbState) ∧ findOne ⟨[]⟩ "alice" = none ∧
    (signup ⟨true, "", none, "k", 0⟩ ⟨[]⟩ ⟨"alice", some "a@x.com", some "secret1"⟩).1 =
      okMsg "Signup successful & email sent" :=
  ⟨by decide, by decide,
   (signup_username_uniqueness ⟨true, "", none, "k", 0⟩ ⟨[]⟩
     ⟨"alice", some "a@x.com", some "secret1"⟩ "secret1" "a@x.com"
     (by decide) (by decide) rfl rfl rfl rfl).1⟩

/-- C6: the token issued on the verified-password branch of signin: its
`username` claim is the request's username, its `exp` claim is exactly
3600 seconds after issuance, and it verifies at T and T+3540s but not at
T+3660s. -/
theorem signin_token_window (env : Env) (st : DbState) (req : SigninReq)
    (u : UserRec)
    (hf : findOne st req.username = some u)
    (hm : bcryptCompare req.password u.password = true) :
    (signin env st req).1.tokenKey = some (jwtSign req.username env.secret env.now) ∧
    (jwtSign req.username env.secret env.now).username = req.username ∧
    (jwtSign req.username env.secret env.now).exp = env.now + 3600 ∧
    jwtVerify (jwtSign req.username env.secret env.now) env.secret env.now = true ∧
    jwtVerify (jwtSign req.username env.secret env.now) env.secret (env.now + 3540) = true ∧
    jwtVerify (jwtSign req.username env.secret env.now) env.secret (env.now + 3660) = false := by
  refine ⟨?_, rfl, rfl, ?_, ?_, ?_⟩
  · simp [signin, hf, hm]
  · simp [jwtVerify, jwtSign]
  · simp [jwtVerify, jwtSign]
  · simp [jwtVerify, jwtSign]

theorem signin_token_window_witness :
    findOne ⟨[⟨"alice", "a@x.com", bcryptHash "secret1"⟩]⟩ "alice" =
      some ⟨"alice", "a@x.com", bcryptHash "secret1"⟩ ∧
    bcryptCompare "secret1" (bcryptHash "secret1") = true ∧
    (signin ⟨true, "", none, "k", 1700000000⟩
        ⟨[⟨"alice", "a@x.com", bcryptHash "secret1"⟩]⟩ ⟨"alice", "secret1"⟩).1.tokenKey =
      some (jwtSign "alice" "k" 1700000000) :=
  ⟨by decide, by decide,
   (signin_token_window ⟨true, "", none, "k", 1700000000⟩
     ⟨[⟨"alice", "a@x.com", bcryptHash "secret1"⟩]⟩ ⟨"alice", "secret1"⟩
     ⟨"alice", "a@x.com", bcryptHash "secret1"⟩ (by decide) (by decide)).1⟩

/-- C7: a raceless signup of a fresh username stores exactly one new
record whose password field is the bcrypt hash of the submitted
plaintext, which is never the plaintext itself; and in general every
record a raceless signup leaves behind either predates the call or
carries a bcrypt hash of the submitted password. -/
theorem signup_stores_hash (env : Env) (st : DbState) (req : SignupReq)
    (p e : String)
    (hf : findOne st req.username = none)
    (hp : req.password = some p) (he : req.email = some e)
    (hr : env.race = none) :
    (signup env st req).2.1 = ⟨st.users ++ [⟨req.username, e, bcryptHash p⟩]⟩ ∧
    bcryptHash p ≠ p ∧
    (∀ env' st' req', env'.race = none →
      ∀ r ∈ (signup env' st' req').2.1.users,
        r ∈ st'.users ∨ ∃ p', req'.password = some p' ∧ r.password = bcryptHash p') := by
  have hrace := applyRace_none env st hr
  have hins := insertUnique_ok_of_fresh st ⟨req.username, e, bcryptHash p⟩ hf
  refine ⟨?_, bcryptHash_ne p,
    fun env' st' req' hr' => signup_new_records_hashed env' st' req' hr'⟩
  by_cases hm : env.emailOk <;> simp [signup, hf, hp, he, hrace, hins, hm]

theorem signup_stores_hash_witness :
    findOne ⟨[]⟩ "alice" = none ∧
    (signup ⟨true, "", none, "k", 0⟩ ⟨[]⟩ ⟨"alice", some "a@x.com", some "secret1"⟩).2.1 =
      ⟨[⟨"alice", "a@x.com", bcryptHash "secret1"⟩]⟩ :=
  ⟨by decide,
   (signup_stores_hash ⟨true, "", none, "k", 0⟩ ⟨[]⟩
     ⟨"alice", some "a@x.com", some "secret1"⟩ "secret1" "a@x.com"
     (by decide) rfl rfl rfl).1⟩

/-- C10 counterexample: a request with an absent password whose username
is already taken does get a domain outcome — the existence check answers
"Username already exists" (status 200) before the hashing step runs. -/
theorem signup_no_validation_cex :
    signup ⟨true, "", none, "k", 0⟩ ⟨[⟨"alice", "a@x.com", "h"⟩]⟩
        ⟨"alice", none, none⟩ =
      (okMsg "Username already exists", ⟨[⟨"alice", "a@x.com", "h"⟩]⟩, noEffects) ∧
    (signup ⟨true, "", none, "k", 0⟩ ⟨[⟨"alice", "a@x.com", "h"⟩]⟩
        ⟨"alice", none, none⟩).1.status ≠ 500 := by
  constructor
  · rfl
  · decide

/-- C10 amended: for a request whose username is not already taken, an
absent password is not validated: the bcrypt call throws and the request
ends in the generic 500 fault branch with bcrypt's raw message, with no
state change and no effects.  (A taken username short-circuits at the
existence check first.) -/
theorem signup_no_validation (env : Env) (st : DbState) (req : SignupReq)
    (hf : findOne st req.username = none) (hp : req.password = none) :
    signup env st req =
      (errResp "data and salt arguments required", st, noEffects) ∧
    (signup env st req).1.status = 500 := by
  constructor <;> simp [signup, hf, hp, errResp]

theorem signup_no_validation_witness :
    findOne ⟨[]⟩ "dave" = none ∧
    signup ⟨true, "", none, "k", 0⟩ ⟨[]⟩ ⟨"dave", some "d@x.com", none⟩ =
      (errResp "data and salt arguments required", ⟨[]⟩, noEffects) :=
  ⟨by decide,
   (signup_no_validation ⟨true, "", none, "k", 0⟩ ⟨[]⟩ ⟨"dave", some "d@x.com", none⟩
     (by decide) rfl).1⟩
